import Mathlib

/-
Verification of the servitor core against its specification.

The Python source is embedded shallowly:
* `Throttle` (src/servitor/connectors/connector.py) becomes a record over ℚ;
  wall-clock time enters as an explicit nonnegative elapsed-time argument
  `dt` (the difference of two `time.monotonic()` readings), and the polling
  loop of `alock` is driven by the list of elapsed times observed at the
  successive polls.  The concurrency semaphore and the real-time sleep
  interval are outside the embedding.
* The `PlainAdapter.__call__` generator (src/servitor/adapter.py) becomes a
  recursive driver over the stream of responses supplied by the caller,
  instrumented with the sequence of prompt/response/error exchanges it
  performs.
* `typecast` / `parse_bool` / `typename` (src/servitor/util.py) become
  recursive functions over an inductive model of Python generic values and
  of the declared-type grammar.
* The `return(...)` regular-expression search of `ChainOfThoughtAdapter.parse`
  becomes an explicit leftmost, greedy, backtracking matcher specialised to
  that pattern.
-/

namespace Servitor

/-! ## Throttle (src/servitor/connectors/connector.py)

Allowances and rates are Python floats; they are modelled as rationals.
`before` (the stored monotonic timestamp) is replaced by passing the elapsed
time `dt = now - before` explicitly to each operation that reads the clock. -/

/-- State of `Throttle`: the two leaky buckets and their configuration.
The `concurrent` semaphore and the `wait` sleep interval are real-time /
concurrency features and are not part of the state model. -/
structure Throttle where
  request_rate : ℚ
  token_rate : ℚ
  token_allowance : ℚ
  request_allowance : ℚ
  period : ℚ
  deriving Repr, DecidableEq

/-- `Throttle.__init__`: both buckets start full. -/
def Throttle.init (request_rate token_rate period : ℚ) : Throttle :=
  { request_rate := request_rate
    token_rate := token_rate
    token_allowance := token_rate
    request_allowance := request_rate
    period := period }

/-- `Throttle.update_allowance` with elapsed time `dt`:
each bucket is replenished proportionally to `dt` and clamped at its rate. -/
def Throttle.update_allowance (s : Throttle) (dt : ℚ) : Throttle :=
  { s with
    token_allowance := min s.token_rate (s.token_allowance + dt * s.token_rate / s.period)
    request_allowance := min s.request_rate (s.request_allowance + dt * s.request_rate / s.period) }

/-- `Throttle.can_proceed(tokens)`: replenish, then grant and debit both
buckets if both hold enough allowance, else deny leaving the replenished
state untouched.  Returns the grant decision and the new state. -/
def Throttle.can_proceed (s : Throttle) (dt : ℚ) (tokens : ℚ) : Bool × Throttle :=
  let s' := s.update_allowance dt
  if s'.token_allowance ≥ tokens ∧ s'.request_allowance ≥ 1 then
    (true,
      { s' with
        token_allowance := s'.token_allowance - tokens
        request_allowance := s'.request_allowance - 1 })
  else
    (false, s')

/-- `Throttle.output(tokens)`: credit the token bucket with the reported
output tokens, clamped at `token_rate`. -/
def Throttle.output (s : Throttle) (tokens : ℚ) : Throttle :=
  { s with token_allowance := min s.token_rate (s.token_allowance + tokens) }

/-- The polling loop of `Throttle.alock` / `Throttle.lock`:
`while not self.can_proceed(tokens): sleep(self.wait)`.
`dts` lists the elapsed time observed at each successive poll; the result is
the number of denied polls before admission and the admitted state, or
`none` if the observation list is exhausted before admission. -/
def Throttle.alock (tokens : ℚ) : Throttle → List ℚ → Option (ℕ × Throttle)
  | _, [] => none
  | s, dt :: dts =>
    match s.can_proceed dt tokens with
    | (true, s') => some (0, s')
    | (false, s') => (Throttle.alock tokens s' dts).map (fun p => (p.1 + 1, p.2))

/-- One mutation of a throttle state: a replenishment (`update_allowance`),
an output credit (`output`), or an admission check (`can_proceed`). -/
inductive ThrottleOp where
  | update (dt : ℚ)
  | credit (tokens : ℚ)
  | proceed (dt : ℚ) (tokens : ℚ)
  deriving Repr, DecidableEq

/-- Apply one operation to a throttle state. -/
def Throttle.step (s : Throttle) : ThrottleOp → Throttle
  | .update dt => s.update_allowance dt
  | .credit t => s.output t
  | .proceed dt t => (s.can_proceed dt t).2

/-- Apply a sequence of operations. -/
def Throttle.run (s : Throttle) (ops : List ThrottleOp) : Throttle :=
  ops.foldl Throttle.step s

/-- Well-formed operation: elapsed times, credited and requested token
counts are nonnegative (monotonic clocks cannot run backwards; token counts
are sizes). -/
def ThrottleOp.wf : ThrottleOp → Prop
  | .update dt => 0 ≤ dt
  | .credit t => 0 ≤ t
  | .proceed dt t => 0 ≤ dt ∧ 0 ≤ t

instance : DecidablePred ThrottleOp.wf := by
  intro op
  cases op <;> simp [ThrottleOp.wf] <;> infer_instance

/-- Reachability invariant of a throttle state: allowances lie between 0 and
their configured rate. -/
def Throttle.Inv (R Q P : ℚ) (s : Throttle) : Prop :=
  s.token_rate = R ∧ s.request_rate = Q ∧ s.period = P ∧
    0 ≤ s.token_allowance ∧ s.token_allowance ≤ R ∧
    0 ≤ s.request_allowance ∧ s.request_allowance ≤ Q

theorem Throttle.inv_init {R Q P : ℚ} (hR : 0 ≤ R) (hQ : 0 ≤ Q) :
    (Throttle.init Q R P).Inv R Q P := by
  refine ⟨rfl, rfl, rfl, hR, le_refl _, hQ, le_refl _⟩

theorem Throttle.inv_update {R Q P : ℚ} {s : Throttle} (hP : 0 < P)
    (hs : s.Inv R Q P) {dt : ℚ} (hdt : 0 ≤ dt) :
    (s.update_allowance dt).Inv R Q P := by
  obtain ⟨h1, h2, h3, h4, h5, h6, h7⟩ := hs
  have hR : 0 ≤ R := h4.trans h5
  have hQ : 0 ≤ Q := h6.trans h7
  have htok : 0 ≤ dt * R / P := div_nonneg (mul_nonneg hdt hR) hP.le
  have hreq : 0 ≤ dt * Q / P := div_nonneg (mul_nonneg hdt hQ) hP.le
  refine ⟨h1, h2, h3, ?_, ?_, ?_, ?_⟩ <;>
    simp only [Throttle.update_allowance, h1, h2, h3]
  · exact le_min hR (by linarith)
  · exact min_le_left _ _
  · exact le_min hQ (by linarith)
  · exact min_le_left _ _

theorem Throttle.inv_output {R Q P : ℚ} {s : Throttle}
    (hs : s.Inv R Q P) {t : ℚ} (ht : 0 ≤ t) :
    (s.output t).Inv R Q P := by
  obtain ⟨h1, h2, h3, h4, h5, h6, h7⟩ := hs
  refine ⟨h1, h2, h3, ?_, ?_, h6, h7⟩ <;> simp only [Throttle.output, h1]
  · exact le_min (by linarith) (by linarith)
  · exact min_le_left _ _

theorem Throttle.inv_proceed {R Q P : ℚ} {s : Throttle} (hP : 0 < P)
    (hs : s.Inv R Q P) {dt t : ℚ} (hdt : 0 ≤ dt) (ht : 0 ≤ t) :
    ((s.can_proceed dt t).2).Inv R Q P := by
  have h' := Throttle.inv_update hP hs hdt
  obtain ⟨h1, h2, h3, h4, h5, h6, h7⟩ := h'
  unfold Throttle.can_proceed
  by_cases hc : (s.update_allowance dt).token_allowance ≥ t ∧
      (s.update_allowance dt).request_allowance ≥ 1
  · simp only [hc, if_pos, and_true]
    refine ⟨h1, h2, h3, ?_, ?_, ?_, ?_⟩
    · show 0 ≤ (s.update_allowance dt).token_allowance - t
      linarith [hc.1]
    · show (s.update_allowance dt).token_allowance - t ≤ R
      linarith
    · show 0 ≤ (s.update_allowance dt).request_allowance - 1
      linarith [hc.2]
    · show (s.update_allowance dt).request_allowance - 1 ≤ Q
      linarith
  · simp only [hc, if_neg, not_false_iff]
    exact ⟨h1, h2, h3, h4, h5, h6, h7⟩

theorem Throttle.inv_step {R Q P : ℚ} {s : Throttle} (hP : 0 < P)
    (hs : s.Inv R Q P) {op : ThrottleOp} (hop : op.wf) :
    (s.step op).Inv R Q P := by
  cases op with
  | update dt => exact Throttle.inv_update hP hs hop
  | credit t => exact Throttle.inv_output hs hop
  | proceed dt t => exact Throttle.inv_proceed hP hs hop.1 hop.2

theorem Throttle.inv_run {R Q P : ℚ} {s : Throttle} (hP : 0 < P)
    (hs : s.Inv R Q P) {ops : List ThrottleOp} (hops : ∀ op ∈ ops, op.wf) :
    (s.run ops).Inv R Q P := by
  induction ops generalizing s with
  | nil => exact hs
  | cons op ops ih =>
    exact ih (Throttle.inv_step hP hs (hops op (by simp)))
      (fun o ho => hops o (by simp [ho]))

/-- Replenishing for at least one full period from a nonnegative allowance
saturates the token bucket at exactly its rate. -/
theorem Throttle.update_saturates {R Q P : ℚ} {s : Throttle} (hP : 0 < P)
    (hR : 0 ≤ R) (hs : s.Inv R Q P) {dt : ℚ} (hdt : P ≤ dt) :
    (s.update_allowance dt).token_allowance = R := by
  obtain ⟨h1, h2, h3, h4, h5, h6, h7⟩ := hs
  simp only [Throttle.update_allowance, h1, h3]
  have hstep : R ≤ s.token_allowance + dt * R / P := by
    have hmul : P * R ≤ dt * R := mul_le_mul_of_nonneg_right hdt hR
    have hdiv : P * R / P ≤ dt * R / P := by gcongr
    have hPR : P * R / P = R := by field_simp
    rw [hPR] at hdiv
    linarith
  exact min_eq_left hstep

/-- Grant condition of `can_proceed`: true exactly when, after replenishment,
both buckets hold enough allowance. -/
theorem Throttle.can_proceed_fst (s : Throttle) (dt c : ℚ) :
    (s.can_proceed dt c).1 = true ↔
      c ≤ (s.update_allowance dt).token_allowance ∧
        1 ≤ (s.update_allowance dt).request_allowance := by
  by_cases h : (s.update_allowance dt).token_allowance ≥ c ∧
      (s.update_allowance dt).request_allowance ≥ 1
  · simp [Throttle.can_proceed, h, h.1, h.2]
  · simp only [ge_iff_le] at h
    simp [Throttle.can_proceed, h]

/-- On a successful check the state is the replenished state debited by
`(c, 1)` in the same step. -/
theorem Throttle.can_proceed_true_snd {s : Throttle} {dt c : ℚ}
    (h : (s.can_proceed dt c).1 = true) :
    (s.can_proceed dt c).2 =
      { s.update_allowance dt with
        token_allowance := (s.update_allowance dt).token_allowance - c
        request_allowance := (s.update_allowance dt).request_allowance - 1 } := by
  rw [Throttle.can_proceed_fst] at h
  unfold Throttle.can_proceed
  simp [ge_iff_le, h.1, h.2]

/-- On a denied check the state is exactly the replenished state: neither
bucket is debited. -/
theorem Throttle.can_proceed_false_snd {s : Throttle} {dt c : ℚ}
    (h : (s.can_proceed dt c).1 = false) :
    (s.can_proceed dt c).2 = s.update_allowance dt := by
  by_cases hc : (s.update_allowance dt).token_allowance ≥ c ∧
      (s.update_allowance dt).request_allowance ≥ 1
  · exfalso
    have htrue : (s.can_proceed dt c).1 = true :=
      (Throttle.can_proceed_fst s dt c).mpr ⟨hc.1, hc.2⟩
    rw [htrue] at h
    exact absurd h (by simp)
  · simp only [ge_iff_le] at hc
    simp [Throttle.can_proceed, hc]

/-- State of a throttle after a run of denied polls: each denied poll only
replenishes. -/
def Throttle.replenishFold (s : Throttle) (dts : List ℚ) : Throttle :=
  dts.foldl Throttle.update_allowance s

theorem Throttle.alock_nil (c : ℚ) (s : Throttle) : Throttle.alock c s [] = none := rfl

theorem Throttle.alock_cons (c : ℚ) (s : Throttle) (dt : ℚ) (dts : List ℚ) :
    Throttle.alock c s (dt :: dts) =
      match s.can_proceed dt c with
      | (true, s') => some (0, s')
      | (false, s') => (Throttle.alock c s' dts).map (fun p => (p.1 + 1, p.2)) := rfl

/-- The polling loop admits at the first poll whose admission check grants:
every earlier poll is denied and leaves only the replenished state, and the
admitted state is the one debited at that grant. -/
theorem Throttle.alock_spec (c : ℚ) :
    ∀ (dts : List ℚ) (s : Throttle) (n : ℕ) (s' : Throttle),
      Throttle.alock c s dts = some (n, s') →
      n < dts.length ∧
        (∀ m, m < n →
          ((s.replenishFold (dts.take m)).can_proceed (dts.getD m 0) c).1 = false) ∧
        ((s.replenishFold (dts.take n)).can_proceed (dts.getD n 0) c).1 = true ∧
        s' = ((s.replenishFold (dts.take n)).can_proceed (dts.getD n 0) c).2
  | [], s, n, s', h => by rw [Throttle.alock_nil] at h; exact absurd h (by simp)
  | dt :: dts, s, n, s', h => by
    rw [Throttle.alock_cons] at h
    rcases hcp : s.can_proceed dt c with ⟨b, s2⟩
    rw [hcp] at h
    cases b with
    | true =>
      simp only [Option.some.injEq, Prod.mk.injEq] at h
      obtain ⟨hn, hs'⟩ := h
      subst hn
      refine ⟨by simp, fun m hm => absurd hm (Nat.not_lt_zero m), ?_, ?_⟩
      · show (s.can_proceed dt c).1 = true
        rw [hcp]
      · show s' = (s.can_proceed dt c).2
        rw [hcp, ← hs']
    | false =>
      simp only [Option.map_eq_some'] at h
      obtain ⟨⟨m, s''⟩, hrec, hpair⟩ := h
      rw [Prod.mk.injEq] at hpair
      obtain ⟨hn, hs''⟩ := hpair
      have hfst : (s.can_proceed dt c).1 = false := by rw [hcp]
      have hs2 : s2 = s.update_allowance dt := by
        have hsnd : (s.can_proceed dt c).2 = s2 := by rw [hcp]
        rw [← hsnd]
        exact Throttle.can_proceed_false_snd hfst
      have hfold : ∀ l : List ℚ, s.replenishFold (dt :: l) = s2.replenishFold l := by
        intro l
        simp only [Throttle.replenishFold, List.foldl_cons, hs2]
      obtain ⟨ih1, ih2, ih3, ih4⟩ := Throttle.alock_spec c dts s2 m s'' hrec
      subst hn
      refine ⟨by simpa using ih1, ?_, ?_, ?_⟩
      · intro k hk
        cases k with
        | zero =>
          show (s.can_proceed dt c).1 = false
          exact hfst
        | succ k =>
          have hk' : k < m := by omega
          simpa only [List.take_succ_cons, List.getD_cons_succ, hfold] using ih2 k hk'
      · simpa only [List.take_succ_cons, List.getD_cons_succ, hfold] using ih3
      · rw [← hs'']
        simpa only [List.take_succ_cons, List.getD_cons_succ, hfold] using ih4
  termination_by dts => dts.length

/-! ## Claim theorems about the Throttle -/

/-- C4: for a throttle configured with `token_rate = R`, `request_rate = Q`
and `period = P`, after any well-formed sequence of replenishments, output
credits and admission checks, `token_allowance` never exceeds `R` and
`request_allowance` never exceeds `Q`; and replenishing for at least `P`
seconds from the reached state saturates `token_allowance` at exactly `R`. -/
theorem C4_throttle_allowances_clamped (R Q P : ℚ) (ops : List ThrottleOp)
    (hR : 0 ≤ R) (hQ : 0 ≤ Q) (hP : 0 < P) (hops : ∀ op ∈ ops, op.wf) :
    ((Throttle.init Q R P).run ops).token_allowance ≤ R ∧
      ((Throttle.init Q R P).run ops).request_allowance ≤ Q ∧
      ∀ dt, P ≤ dt →
        (((Throttle.init Q R P).run ops).update_allowance dt).token_allowance = R := by
  have hinv := Throttle.inv_run hP (Throttle.inv_init hR hQ) hops
  exact ⟨hinv.2.2.2.2.1, hinv.2.2.2.2.2.2,
    fun dt hdt => Throttle.update_saturates hP hR hinv hdt⟩

theorem C4_throttle_allowances_clamped_witness :
    ((Throttle.init 2 10 1).run [.update 1, .credit 3, .proceed 0 4]).token_allowance ≤ 10 ∧
      ((Throttle.init 2 10 1).run [.update 1, .credit 3, .proceed 0 4]).request_allowance ≤ 2 ∧
      (((Throttle.init 2 10 1).run
          [.update 1, .credit 3, .proceed 0 4]).update_allowance 1).token_allowance = 10 :=
  have h := C4_throttle_allowances_clamped 10 2 1 [.update 1, .credit 3, .proceed 0 4]
    (by norm_num) (by norm_num) (by norm_num)
    (by intro op hop
        simp only [List.mem_cons, List.not_mem_nil, or_false] at hop
        rcases hop with rfl | rfl | rfl <;> norm_num [ThrottleOp.wf])
  ⟨h.1, h.2.1, h.2.2 1 (by norm_num)⟩

/-- C5: an admission check with estimated cost `c` grants exactly when, after
time-based replenishment, the token bucket holds at least `c` and the
request bucket at least 1; on a grant both debits `(c, 1)` happen in the
same step; and the polling loop of `alock` admits only at the first granting
poll, every earlier poll being denied and merely waiting. -/
theorem C5_throttle_admission (s : Throttle) (dt c : ℚ) (dts : List ℚ)
    (n : ℕ) (s' : Throttle) (h : Throttle.alock c s dts = some (n, s')) :
    ((s.can_proceed dt c).1 = true ↔
        c ≤ (s.update_allowance dt).token_allowance ∧
          1 ≤ (s.update_allowance dt).request_allowance) ∧
      ((s.can_proceed dt c).1 = true →
        (s.can_proceed dt c).2 =
          { s.update_allowance dt with
            token_allowance := (s.update_allowance dt).token_allowance - c
            request_allowance := (s.update_allowance dt).request_allowance - 1 }) ∧
      (n < dts.length ∧
        (∀ m, m < n →
          ((s.replenishFold (dts.take m)).can_proceed (dts.getD m 0) c).1 = false) ∧
        ((s.replenishFold (dts.take n)).can_proceed (dts.getD n 0) c).1 = true ∧
        s' = ((s.replenishFold (dts.take n)).can_proceed (dts.getD n 0) c).2) :=
  ⟨Throttle.can_proceed_fst s dt c, fun hg => Throttle.can_proceed_true_snd hg,
    Throttle.alock_spec c dts s n s' h⟩

theorem C5_throttle_admission_witness :
    Throttle.alock 5 ⟨1, 10, 0, 0, 60⟩ [30, 30] = some (1, ⟨1, 10, 5, 0, 60⟩) ∧
      ((Throttle.replenishFold ⟨1, 10, 0, 0, 60⟩ ([30, 30].take 1)).can_proceed
          ([30, 30].getD 1 0) 5).1 = true :=
  ⟨by norm_num [Throttle.alock_cons, Throttle.alock_nil, Throttle.can_proceed,
      Throttle.update_allowance],
    (C5_throttle_admission ⟨1, 10, 0, 0, 60⟩ 30 5 [30, 30] 1 ⟨1, 10, 5, 0, 60⟩
        (by norm_num [Throttle.alock_cons, Throttle.alock_nil, Throttle.can_proceed,
          Throttle.update_allowance])).2.2.2.2.1⟩

/-- C10: a denied admission check leaves both buckets exactly at their
replenished values, with no debit; the two debits (`c` tokens, 1 request)
are applied only together, on a granted check. -/
theorem C10_no_debit_on_denied_admission (s : Throttle) (dt c : ℚ) :
    ((s.can_proceed dt c).1 = false →
      (s.can_proceed dt c).2 = s.update_allowance dt) ∧
      ((s.can_proceed dt c).1 = true →
        (s.can_proceed dt c).2 =
          { s.update_allowance dt with
            token_allowance := (s.update_allowance dt).token_allowance - c
            request_allowance := (s.update_allowance dt).request_allowance - 1 }) :=
  ⟨fun h => Throttle.can_proceed_false_snd h, fun h => Throttle.can_proceed_true_snd h⟩

theorem C10_no_debit_on_denied_admission_witness :
    (((⟨1, 10, 0, 0, 60⟩ : Throttle).can_proceed 0 5).1 = false ∧
      ((⟨1, 10, 0, 0, 60⟩ : Throttle).can_proceed 0 5).2 =
        (⟨1, 10, 0, 0, 60⟩ : Throttle).update_allowance 0) ∧
      (((⟨1, 10, 10, 1, 60⟩ : Throttle).can_proceed 0 5).1 = true ∧
        ((⟨1, 10, 10, 1, 60⟩ : Throttle).can_proceed 0 5).2 =
          { (⟨1, 10, 10, 1, 60⟩ : Throttle).update_allowance 0 with
            token_allowance :=
              ((⟨1, 10, 10, 1, 60⟩ : Throttle).update_allowance 0).token_allowance - 5
            request_allowance :=
              ((⟨1, 10, 10, 1, 60⟩ : Throttle).update_allowance 0).request_allowance - 1 }) :=
  ⟨⟨by norm_num [Throttle.can_proceed, Throttle.update_allowance],
      (C10_no_debit_on_denied_admission ⟨1, 10, 0, 0, 60⟩ 0 5).1
        (by norm_num [Throttle.can_proceed, Throttle.update_allowance])⟩,
    ⟨by norm_num [Throttle.can_proceed, Throttle.update_allowance],
      (C10_no_debit_on_denied_admission ⟨1, 10, 10, 1, 60⟩ 0 5).2
        (by norm_num [Throttle.can_proceed, Throttle.update_allowance])⟩⟩

/-- C3 fails on the code: with a full bucket of 100, an admission debit of
the estimate 10 and a reported completion usage of 7, `output` credits the 7
reported tokens, so the bucket ends up charged 3 = 10 - 7, which is neither
the reported completion usage 7 nor the total usage 17. -/
theorem C3_output_counterexample :
    (((Throttle.init 10 100 1).can_proceed 0 10).2.output 7).token_allowance = 97 ∧
      100 - (((Throttle.init 10 100 1).can_proceed 0 10).2.output 7).token_allowance ≠ 7 ∧
      100 - (((Throttle.init 10 100 1).can_proceed 0 10).2.output 7).token_allowance
        ≠ 10 + 7 := by
  norm_num [Throttle.can_proceed, Throttle.update_allowance, Throttle.init, Throttle.output]

/-- C3 (amended): `output` credits the token bucket with the provider's
reported completion token count itself, clamped at `token_rate`; after an
admission that debited the estimate `c`, the bucket therefore ends up
charged `c - t` relative to its replenished level, not the actual usage. -/
theorem C3_output_credits_completion_tokens (s : Throttle) (dt c t : ℚ)
    (hgrant : (s.can_proceed dt c).1 = true)
    (hclamp : (s.update_allowance dt).token_allowance - c + t ≤ s.token_rate) :
    (((s.can_proceed dt c).2).output t).token_allowance
      = (s.update_allowance dt).token_allowance - c + t := by
  rw [Throttle.can_proceed_true_snd hgrant]
  show min s.token_rate ((s.update_allowance dt).token_allowance - c + t)
    = (s.update_allowance dt).token_allowance - c + t
  exact min_eq_right hclamp

theorem C3_output_credits_completion_tokens_witness :
    ((((Throttle.init 10 100 1).can_proceed 0 10).1 = true) ∧
      ((Throttle.init 10 100 1).update_allowance 0).token_allowance - 10 + 7 ≤ (100 : ℚ)) ∧
      (((Throttle.init 10 100 1).can_proceed 0 10).2.output 7).token_allowance
        = ((Throttle.init 10 100 1).update_allowance 0).token_allowance - 10 + 7 :=
  ⟨⟨by norm_num [Throttle.can_proceed, Throttle.update_allowance, Throttle.init],
      by norm_num [Throttle.update_allowance, Throttle.init]⟩,
    C3_output_credits_completion_tokens (Throttle.init 10 100 1) 0 10 7
      (by norm_num [Throttle.can_proceed, Throttle.update_allowance, Throttle.init])
      (by norm_num [Throttle.update_allowance, Throttle.init])⟩

/-! ## Adapter negotiation loop (src/servitor/adapter.py)

`PlainAdapter.__call__` is a bidirectional generator:

    res = yield prompt
    for i in range(self.retry):
        try:
            return self.parse(origin, res)
        except Exception as e:
            res = yield self.fix(task, res, e)

The kernel drive loop feeds each yielded prompt to the connector and sends
the completion back; when the generator stops, `StopIteration.value` is
returned to the caller as is.  The embedding below parameterises over
`parse` (overridden by `TypeAdapter` / `ChainOfThoughtAdapter`) and `fixOf`
(the `FIX` template applied to the failed response and the error), and
drives the generator against the stream `responses` (response number `i` is
the completion sent for the `i`-th yielded prompt).  A Python exception
raised by `parse` is an `Except.error`. -/

/-- One prompt/response exchange: the prompt yielded, the raw response sent
back, and the decode error if parsing it failed (`none` on success).  The
source keeps no such record; the trace instruments what the generator did. -/
structure Attempt (E : Type) where
  prompt : String
  response : String
  error : Option E
  deriving Repr, DecidableEq

/-- Outcome of one driven negotiation. -/
structure NegotiationResult (E α : Type) where
  /-- Value returned by the generator; `none` when it falls off the end of
  the retry loop (Python returns `None`). -/
  value : Option α
  /-- Parse attempts actually performed, in order. -/
  attempts : List (Attempt E)
  /-- Number of responses requested from the caller, one per yielded
  prompt. -/
  consumed : ℕ
  deriving Repr, DecidableEq

/-- The retry loop, having just received response number `i` (0-based)
elicited by prompt `p`, with `k` loop iterations remaining.  A failed parse
yields the fix prompt and receives response `i + 1`; an exhausted loop makes
the generator return `None` without parsing the response it just
requested. -/
def negotiateFrom {E α : Type} (parse : String → Except E α)
    (fixOf : String → E → String) (responses : ℕ → String) :
    ℕ → String → ℕ → NegotiationResult E α
  | i, _, 0 => ⟨none, [], i + 1⟩
  | i, p, k + 1 =>
    match parse (responses i) with
    | .ok v => ⟨some v, [⟨p, responses i, none⟩], i + 1⟩
    | .error e =>
      let rest := negotiateFrom parse fixOf responses (i + 1) (fixOf (responses i) e) k
      ⟨rest.value, ⟨p, responses i, some e⟩ :: rest.attempts, rest.consumed⟩

/-- `PlainAdapter.__call__` as driven by the kernel loop: yield the initial
prompt, receive response 0, then run the retry loop `retry` times. -/
def negotiate {E α : Type} (parse : String → Except E α)
    (fixOf : String → E → String) (prompt : String) (retry : ℕ)
    (responses : ℕ → String) : NegotiationResult E α :=
  negotiateFrom parse fixOf responses 0 prompt retry

theorem negotiateFrom_all_fail {E α : Type} (parse : String → Except E α)
    (fixOf : String → E → String) (responses : ℕ → String)
    (hfail : ∀ i, ∃ e, parse (responses i) = .error e) :
    ∀ (k i : ℕ) (p : String),
      (negotiateFrom parse fixOf responses i p k).value = none ∧
        (negotiateFrom parse fixOf responses i p k).attempts.length = k ∧
        (negotiateFrom parse fixOf responses i p k).consumed = i + k + 1 := by
  intro k
  induction k with
  | zero => intro i p; exact ⟨rfl, rfl, rfl⟩
  | succ k ih =>
    intro i p
    obtain ⟨e, he⟩ := hfail i
    simp only [negotiateFrom, he]
    obtain ⟨ih1, ih2, ih3⟩ := ih (i + 1) (fixOf (responses i) e)
    refine ⟨ih1, ?_, ?_⟩
    · simp [ih2]
    · simp only [ih3]
      omega

theorem negotiateFrom_succeeds {E α : Type} (parse : String → Except E α)
    (fixOf : String → E → String) (responses : ℕ → String) {v : α} :
    ∀ (m k i : ℕ) (p : String), m < k →
      (∀ j, j < m → ∃ e, parse (responses (i + j)) = .error e) →
      parse (responses (i + m)) = .ok v →
      (negotiateFrom parse fixOf responses i p k).value = some v ∧
        (negotiateFrom parse fixOf responses i p k).attempts.length = m + 1 ∧
        (negotiateFrom parse fixOf responses i p k).consumed = i + m + 1 := by
  intro m
  induction m with
  | zero =>
    intro k i p hmk _ hok
    obtain ⟨k, rfl⟩ : ∃ k', k = k' + 1 := ⟨k - 1, by omega⟩
    simp only [Nat.add_zero] at hok
    simp [negotiateFrom, hok]
  | succ m ih =>
    intro k i p hmk hfails hok
    obtain ⟨k, rfl⟩ : ∃ k', k = k' + 1 := ⟨k - 1, by omega⟩
    obtain ⟨e, he⟩ := hfails 0 (Nat.succ_pos m)
    simp only [Nat.add_zero] at he
    simp only [negotiateFrom, he]
    have hrec := ih k (i + 1) (fixOf (responses i) e) (by omega)
      (fun j hj => by
        have := hfails (j + 1) (by omega)
        simpa [Nat.add_assoc, Nat.add_comm 1 j] using this)
      (by
        have : i + 1 + m = i + (m + 1) := by omega
        rw [this]
        exact hok)
    obtain ⟨h1, h2, h3⟩ := hrec
    refine ⟨h1, ?_, ?_⟩
    · simp [h2]
    · simp only [h3]
      omega

/-- C1 fails on the code: `PlainAdapter.__call__` raises no ParseError and
keeps no attempt history.  With a decoder failing on every response and
retry budget `retry`, the generator performs `retry` parse attempts, yields
`retry` correction prompts, consumes `retry + 1` responses (the final
correction response is requested but never parsed), and then falls off the
end of its loop, so the kernel returns `None`: no value and no error. -/
theorem C1_exhausted_negotiation_returns_none {E α : Type}
    (parse : String → Except E α) (fixOf : String → E → String)
    (prompt : String) (responses : ℕ → String) (retry : ℕ)
    (hfail : ∀ i, ∃ e, parse (responses i) = .error e) :
    (negotiate parse fixOf prompt retry responses).value = none ∧
      (negotiate parse fixOf prompt retry responses).attempts.length = retry ∧
      (negotiate parse fixOf prompt retry responses).consumed = retry + 1 := by
  have h := negotiateFrom_all_fail parse fixOf responses hfail retry 0 prompt
  simpa [negotiate] using h

theorem C1_exhausted_negotiation_returns_none_witness :
    (negotiate (fun _ => (Except.error "bad" : Except String ℕ))
        (fun r _ => r) "prompt" 3 (fun _ => "junk")).value = none ∧
      (negotiate (fun _ => (Except.error "bad" : Except String ℕ))
        (fun r _ => r) "prompt" 3 (fun _ => "junk")).attempts.length = 3 ∧
      (negotiate (fun _ => (Except.error "bad" : Except String ℕ))
        (fun r _ => r) "prompt" 3 (fun _ => "junk")).consumed = 3 + 1 :=
  C1_exhausted_negotiation_returns_none _ _ "prompt" _ 3 (fun _ => ⟨"bad", rfl⟩)

/-- C2: if the decoder fails on attempts 1..k-1 and succeeds on attempt `k`
with `1 ≤ k ≤ retry`, the negotiation returns the value decoded on attempt
`k` and the sequence of attempts performed has exactly `k` entries (`k - 1`
failures plus the success). -/
theorem C2_success_at_attempt_k {E α : Type}
    (parse : String → Except E α) (fixOf : String → E → String)
    (prompt : String) (responses : ℕ → String) (retry k : ℕ) {v : α}
    (hk1 : 1 ≤ k) (hk2 : k ≤ retry)
    (hfails : ∀ j, j + 1 < k → ∃ e, parse (responses j) = .error e)
    (hok : parse (responses (k - 1)) = .ok v) :
    (negotiate parse fixOf prompt retry responses).value = some v ∧
      (negotiate parse fixOf prompt retry responses).attempts.length = k := by
  have h := negotiateFrom_succeeds parse fixOf responses (k - 1) retry 0 prompt
    (by omega)
    (fun j hj => by simpa using hfails j (by omega))
    (by simpa using hok)
  exact ⟨h.1, by rw [negotiate, h.2.1]; omega⟩

theorem C2_success_at_attempt_k_witness :
    (1 ≤ 2 ∧ 2 ≤ 3 ∧
        (fun s => if s = "good" then (Except.ok 42 : Except String ℕ)
          else .error "bad") ((fun i => if i = 1 then "good" else "junk") (2 - 1)) = .ok 42) ∧
      (negotiate
            (fun s => if s = "good" then (Except.ok 42 : Except String ℕ) else .error "bad")
            (fun r _ => r) "prompt" 3 (fun i => if i = 1 then "good" else "junk")).value
          = some 42 ∧
        (negotiate
            (fun s => if s = "good" then (Except.ok 42 : Except String ℕ) else .error "bad")
            (fun r _ => r) "prompt" 3
            (fun i => if i = 1 then "good" else "junk")).attempts.length = 2 :=
  ⟨⟨by norm_num, by norm_num, rfl⟩,
    C2_success_at_attempt_k _ _ "prompt" _ 3 2 (by norm_num) (by norm_num)
      (fun j hj => ⟨"bad", by
        obtain rfl : j = 0 := by omega
        rfl⟩)
      rfl⟩

/-! ## Python generic values and util.typecast (src/servitor/util.py)

`Value` models the Python values flowing through `typecast`: the generic
values produced by parsing the permissive dialect (str/int/float/bool/None/
list/dict) plus the tuples and sets that `typecast` itself constructs.
`Ty` models the output of `normalize_type`: the declared-type grammar with
an empty argument list standing for an unqualified builtin (`list` vs
`list[T]`).  `frozenset` is handled identically to `set` and not modelled
separately; class-based targets (NamedTuple, dataclass, TypedDict), which
are outside the declared-type grammar of the specification, are omitted.
Python builtins (`float()`, `int(s, 0)`, `str()`, `==`, iteration) are
modelled below; doc comments state where a builtin is modelled on a subset
(underscore digit grouping, `inf`/`nan` spellings, non-ASCII case folding
and whitespace are omitted — none are exercised by any theorem). -/

inductive Value where
  | null
  | bool (b : Bool)
  | int (n : ℤ)
  | float (q : ℚ)
  | str (s : String)
  | list (xs : List Value)
  | tuple (xs : List Value)
  | set (xs : List Value)
  | dict (xs : List (Value × Value))
  deriving Repr

/-- Python exception kinds raised by the decode paths. -/
inductive PyErr where
  | typeError (msg : String)
  | valueError (msg : String)
  | attributeError (msg : String)
  deriving Repr, DecidableEq

/-- Normalised declared types (the output of `normalize_type`).  An empty
argument list is the unqualified builtin class. -/
inductive Ty where
  | any
  | noneT
  | boolT
  | intT
  | floatT
  | strT
  | forwardRef (s : String)
  | literal (vs : List Value)
  | union (ts : List Ty)
  | mappingT
  | sequenceT
  | listT (args : List Ty)
  | tupleT (args : List Ty)
  | setT (args : List Ty)
  | dictT (args : List Ty)
  deriving Repr

/-- ASCII whitespace recognised by Python `str.strip` / `\s`. -/
def isPyWs (c : Char) : Bool :=
  c = ' ' || c = '\t' || c = '\n' || c = '\r' || c = '\x0b' || c = '\x0c'

/-- Python `str.lower`, on the ASCII subset. -/
def pyLower (s : String) : String := String.mk (s.data.map Char.toLower)

def isDigitChar (c : Char) : Bool := '0' ≤ c && c ≤ '9'

mutual
/-- Python `==` between values: numeric types compare by value across
`bool`/`int`/`float`; sequences compare elementwise; sets and dicts by
mutual containment. -/
def pyEq : Value → Value → Bool
  | .null, .null => true
  | .bool a, .bool b => a = b
  | .bool a, .int n => (if a then (1 : ℤ) else 0) = n
  | .bool a, .float q => (if a then (1 : ℚ) else 0) = q
  | .int m, .bool b => m = (if b then 1 else 0)
  | .int m, .int n => m = n
  | .int m, .float q => (m : ℚ) = q
  | .float p, .bool b => p = (if b then 1 else 0)
  | .float p, .int n => p = (n : ℚ)
  | .float p, .float q => p = q
  | .str a, .str b => a = b
  | .list a, .list b => pyEqList a b
  | .tuple a, .tuple b => pyEqList a b
  | .set a, .set b => pyEqSub a b && pyEqSub b a
  | .dict a, .dict b => pyEqPairsSub a b && pyEqPairsSub b a
  | _, _ => false
  termination_by a b => sizeOf a + sizeOf b

def pyEqList : List Value → List Value → Bool
  | [], [] => true
  | x :: xs, y :: ys => pyEq x y && pyEqList xs ys
  | _, _ => false
  termination_by xs ys => sizeOf xs + sizeOf ys

/-- Python `x in l` by `==`. -/
def pyEqMem (x : Value) : List Value → Bool
  | [] => false
  | y :: ys => pyEq x y || pyEqMem x ys
  termination_by l => sizeOf x + sizeOf l

def pyEqSub : List Value → List Value → Bool
  | [], _ => true
  | x :: xs, b => pyEqMem x b && pyEqSub xs b
  termination_by xs b => sizeOf xs + sizeOf b

def pyEqPairMem (k v : Value) : List (Value × Value) → Bool
  | [] => false
  | (k2, v2) :: qs => (pyEq k k2 && pyEq v v2) || pyEqPairMem k v qs
  termination_by l => sizeOf k + sizeOf v + sizeOf l

def pyEqPairsSub : List (Value × Value) → List (Value × Value) → Bool
  | [], _ => true
  | (k2, v2) :: ps, b => pyEqPairMem k2 v2 b && pyEqPairsSub ps b
  termination_by ps b => sizeOf ps + sizeOf b
end

/-- Escape a string body for Python `repr` (backslash, the quote character,
and the common control characters; exotic escapes are not modelled). -/
def pyEscape (quote : Char) (s : String) : String :=
  s.data.foldl (fun acc c =>
    acc ++ (if c = '\\' then "\\\\"
      else if c = quote then "\\" ++ quote.toString
      else if c = '\n' then "\\n"
      else if c = '\t' then "\\t"
      else if c = '\r' then "\\r"
      else c.toString)) ""

/-- Python `repr` of a string: single-quoted unless the string holds a
single quote and no double quote. -/
def pyStrLit (s : String) : String :=
  if s.data.contains '\'' && !(s.data.contains '"') then
    "\"" ++ pyEscape '"' s ++ "\""
  else
    "\x27" ++ pyEscape '\'' s ++ "\x27"

/-- Smallest number of decimal digits after the point representing `q`
exactly, when one of at most 40 exists. -/
def decimalExpK (q : ℚ) : Option ℕ :=
  (List.range 40).find? (fun k => (q * ((10 : ℚ) ^ k)).den = 1)

/-- Python `repr` of a float, for rationals with a finite decimal
expansion (the only ones produced by the modelled parsers); scientific
notation for extreme magnitudes is not modelled. -/
def floatRepr (q : ℚ) : String :=
  match decimalExpK q with
  | none => toString q
  | some 0 => toString q.num ++ ".0"
  | some k =>
      let m := (q * ((10 : ℚ) ^ k)).num.natAbs
      let sign := if q < 0 then "-" else ""
      let ip := m / 10 ^ k
      let fp := m % 10 ^ k
      let fs := toString fp
      let fs := String.mk (List.replicate (k - fs.length) '0') ++ fs
      sign ++ toString ip ++ "." ++ fs

mutual
/-- Python `repr` of a value. -/
def pyRepr : Value → String
  | .null => "None"
  | .bool b => if b then "True" else "False"
  | .int n => toString n
  | .float q => floatRepr q
  | .str s => pyStrLit s
  | .list xs => "[" ++ pyReprList xs ++ "]"
  | .tuple [x] => "(" ++ pyRepr x ++ ",)"
  | .tuple xs => "(" ++ pyReprList xs ++ ")"
  | .set [] => "set()"
  | .set xs => "\x7b" ++ pyReprList xs ++ "\x7d"
  | .dict xs => "\x7b" ++ pyReprPairs xs ++ "\x7d"
  termination_by v => sizeOf v

def pyReprList : List Value → String
  | [] => ""
  | [x] => pyRepr x
  | x :: xs => pyRepr x ++ ", " ++ pyReprList xs
  termination_by xs => sizeOf xs

def pyReprPairs : List (Value × Value) → String
  | [] => ""
  | [(k, v)] => pyRepr k ++ ": " ++ pyRepr v
  | (k, v) :: xs => pyRepr k ++ ": " ++ pyRepr v ++ ", " ++ pyReprPairs xs
  termination_by xs => sizeOf xs
end

/-- Python `str()`: identity on strings, `repr` otherwise. -/
def pyStr : Value → String
  | .str s => s
  | v => pyRepr v

/-- Python `type(v).__name__`. -/
def pyTypeName : Value → String
  | .null => "NoneType"
  | .bool _ => "bool"
  | .int _ => "int"
  | .float _ => "float"
  | .str _ => "str"
  | .list _ => "list"
  | .tuple _ => "tuple"
  | .set _ => "set"
  | .dict _ => "dict"

/-- `util.typename` applied to `type(v)`: the class name, except that `str`
renders as "string". -/
def typenameOfClass : Value → String
  | .str _ => "string"
  | v => pyTypeName v

/-- Python truthiness, `bool(v)`. -/
def pyTruthy : Value → Bool
  | .null => false
  | .bool b => b
  | .int n => n ≠ 0
  | .float q => q ≠ 0
  | .str s => s ≠ ""
  | .list xs => !xs.isEmpty
  | .tuple xs => !xs.isEmpty
  | .set xs => !xs.isEmpty
  | .dict xs => !xs.isEmpty

def isNullV : Value → Bool
  | .null => true
  | _ => false

/-- Python `v == n` for an integer literal `n` (match-statement literal
patterns compare with `==`, so `True` matches `1` and `1.0` matches `1`). -/
def pyEqInt (v : Value) (n : ℤ) : Bool :=
  match v with
  | .bool b => (if b then (1 : ℤ) else 0) = n
  | .int m => m = n
  | .float q => q = (n : ℚ)
  | _ => false

def pyStrIn (v : Value) (l : List String) : Bool :=
  match v with
  | .str s => l.contains s
  | _ => false

/-- String tokens of the true patterns of `parse_bool`. -/
def parseBoolTrueTokens : List String := ["t", "true", "y", "yes", "on", "enable", "1"]

/-- String tokens of the false patterns of `parse_bool`. -/
def parseBoolFalseTokens : List String := ["f", "false", "n", "no", "off", "disable", "0", ""]

/-- `util.parse_bool`: lowercase a string argument, then match the
permissive true/false patterns (match-statement literals compare by `==`);
anything else raises ValueError. -/
def parse_bool (v : Value) : Except PyErr Bool :=
  let v2 := match v with
    | .str s => Value.str (pyLower s)
    | x => x
  if pyEqInt v2 1 || pyStrIn v2 parseBoolTrueTokens then
    .ok true
  else if pyEqInt v2 0 || isNullV v2 || pyStrIn v2 parseBoolFalseTokens then
    .ok false
  else
    .error (.valueError ("Cannot convert " ++ pyRepr v2 ++ " to bool"))

def isHexDigitChar (c : Char) : Bool :=
  isDigitChar c || ('a' ≤ c && c ≤ 'f') || ('A' ≤ c && c ≤ 'F')

def isOctDigitChar (c : Char) : Bool := '0' ≤ c && c ≤ '7'

def isBinDigitChar (c : Char) : Bool := c = '0' || c = '1'

def hexVal (c : Char) : ℕ :=
  if isDigitChar c then c.toNat - 48
  else if 'a' ≤ c && c ≤ 'f' then c.toNat - 87
  else c.toNat - 55

def digitsValBase (b : ℕ) (l : List Char) : ℕ :=
  l.foldl (fun a c => a * b + hexVal c) 0

/-- Python `str.strip()` (ASCII whitespace). -/
def stripPyWs (l : List Char) : List Char :=
  ((l.dropWhile isPyWs).reverse.dropWhile isPyWs).reverse

/-- Unsigned body of `int(s, 0)` after stripping whitespace and sign:
a `0x`/`0o`/`0b` prefixed literal, a run of zeros, or a decimal number with
no leading zero.  Underscore digit grouping is not modelled. -/
def parseIntZeroTail : List Char → Option ℕ
  | [] => some 0
  | c :: rest =>
      if c = 'x' || c = 'X' then
        if !rest.isEmpty && rest.all isHexDigitChar then
          some (digitsValBase 16 rest)
        else none
      else if c = 'o' || c = 'O' then
        if !rest.isEmpty && rest.all isOctDigitChar then
          some (digitsValBase 8 rest)
        else none
      else if c = 'b' || c = 'B' then
        if !rest.isEmpty && rest.all isBinDigitChar then
          some (digitsValBase 2 rest)
        else none
      else if (c :: rest).all (fun x => x = '0') then some 0
      else none

def parseIntBody : List Char → Option ℕ
  | [] => none
  | c0 :: tl =>
      if c0 = '0' then parseIntZeroTail tl
      else if (c0 :: tl).all isDigitChar then some (digitsValBase 10 (c0 :: tl))
      else none

/-- Sign handling of `int(s, 0)` after stripping whitespace. -/
def pyIntSigned : List Char → Option ℤ
  | [] => none
  | c :: r =>
      if c = '+' then (parseIntBody r).map Int.ofNat
      else if c = '-' then (parseIntBody r).map (fun n => -(Int.ofNat n))
      else (parseIntBody (c :: r)).map Int.ofNat

/-- Python `int(s, 0)`: strip whitespace, take an optional sign, parse the
base-marked body. -/
def pyIntBase0 (s : String) : Option ℤ :=
  pyIntSigned (stripPyWs s.data)

/-- Build the rational of a parsed decimal literal: sign, integer part,
fraction digits with their count, and a decimal exponent. -/
def ratOfDec (neg : Bool) (ip fd fl : ℕ) (ex : ℤ) : ℚ :=
  (if neg then -1 else 1) * ((ip : ℚ) + (fd : ℚ) / (10 : ℚ) ^ fl) * (10 : ℚ) ^ ex

def pyFloatExpPart (neg : Bool) (ip fd fl : ℕ) (r : List Char) : Option ℚ :=
  let eb : Bool × List Char :=
    match r with
    | '+' :: r2 => (false, r2)
    | '-' :: r2 => (true, r2)
    | r2 => (false, r2)
  if eb.2.isEmpty || !(eb.2.all isDigitChar) then none
  else some (ratOfDec neg ip fd fl ((if eb.1 then -1 else 1) * (digitsValBase 10 eb.2 : ℤ)))

/-- Python `float(s)` on the decimal grammar `[+-]digits[.digits][e[+-]digits]`;
`inf`/`nan` spellings and underscore grouping are not modelled. -/
def pyFloatLit (s : String) : Option ℚ :=
  let l := stripPyWs s.data
  let sb : Bool × List Char :=
    match l with
    | '+' :: r => (false, r)
    | '-' :: r => (true, r)
    | r => (false, r)
  let l2 := sb.2
  let ip := l2.takeWhile isDigitChar
  let rest := l2.dropWhile isDigitChar
  let fr : Option (List Char) × List Char :=
    match rest with
    | '.' :: r => (some (r.takeWhile isDigitChar), r.dropWhile isDigitChar)
    | r => (none, r)
  if ip.isEmpty && (match fr.1 with | some f => f.isEmpty | none => true) then none
  else
    let fd := match fr.1 with | some f => digitsValBase 10 f | none => 0
    let fl := match fr.1 with | some f => f.length | none => 0
    match fr.2 with
    | [] => some (ratOfDec sb.1 (digitsValBase 10 ip) fd fl 0)
    | 'e' :: r => pyFloatExpPart sb.1 (digitsValBase 10 ip) fd fl r
    | 'E' :: r => pyFloatExpPart sb.1 (digitsValBase 10 ip) fd fl r
    | _ => none

/-- Python `int()` truncation toward zero for floats. -/
def pyTrunc (q : ℚ) : ℤ := if 0 ≤ q then ⌊q⌋ else ⌈q⌉

/-- Python builtin `float(v)`. -/
def pyFloat : Value → Except PyErr ℚ
  | .float q => .ok q
  | .int n => .ok (n : ℚ)
  | .bool b => .ok (if b then 1 else 0)
  | .str s =>
      match pyFloatLit s with
      | some q => .ok q
      | none => .error (.valueError ("could not convert string to float: " ++ pyStrLit s))
  | v => .error (.typeError
      ("float() argument must be a string or a real number, not \x27" ++ pyTypeName v ++ "\x27"))

/-- Python builtin `int(v)` for non-string arguments. -/
def pyInt : Value → Except PyErr ℤ
  | .int n => .ok n
  | .bool b => .ok (if b then 1 else 0)
  | .float q => .ok (pyTrunc q)
  | v => .error (.typeError
      ("int() argument must be a string, a bytes-like object or a real number, not \x27"
        ++ pyTypeName v ++ "\x27"))

/-- Python iteration: lists, tuples and sets yield elements, strings yield
characters, dicts yield keys; everything else raises TypeError. -/
def pyIter : Value → Except PyErr (List Value)
  | .list xs => .ok xs
  | .tuple xs => .ok xs
  | .set xs => .ok xs
  | .str s => .ok (s.data.map (fun c => .str c.toString))
  | .dict ps => .ok (ps.map (fun p => p.1))
  | v => .error (.typeError ("\x27" ++ pyTypeName v ++ "\x27 object is not iterable"))

/-- One key/value element for `dict(iterable)`; only two-element sequences
are modelled. -/
def pairOf : Value → Except PyErr (Value × Value)
  | .list [k, v] => .ok (k, v)
  | .tuple [k, v] => .ok (k, v)
  | _ => .error (.typeError "cannot convert dictionary update sequence element to a key-value pair")

/-- Insert a binding, replacing an existing `==`-equal key in place (Python
keeps the first key object and position, the new value). -/
def dictSetKey : List (Value × Value) → Value → Value → List (Value × Value)
  | [], k, v => [(k, v)]
  | (k2, v2) :: ps, k, v =>
      if pyEq k2 k then (k2, v) :: ps else (k2, v2) :: dictSetKey ps k v

def dictOfPairs (ps : List (Value × Value)) : List (Value × Value) :=
  ps.foldl (fun acc p => dictSetKey acc p.1 p.2) []

/-- Python `dict(v)`. -/
def pyDictOf : Value → Except PyErr Value
  | .dict ps => .ok (.dict ps)
  | v => do
      let xs ← pyIter v
      let ps ← xs.mapM pairOf
      .ok (.dict (dictOfPairs ps))

/-- Python `set(...)` deduplication, keeping first occurrences by `==`
(hashability is not modelled). -/
def pySetDedup (xs : List Value) : List Value :=
  xs.foldl (fun acc x => if pyEqMem x acc then acc else acc ++ [x]) []

def isNoneTy : Ty → Bool
  | .noneT => true
  | _ => false

def isAnyTy : Ty → Bool
  | .any => true
  | _ => false

def isForwardRefTy : Ty → Bool
  | .forwardRef _ => true
  | _ => false

/-- Abbreviated rendering of a type inside a generic alias, used only to
build the message of the TypeError that `typing.get_type_hints` raises on
a generic alias (approximate; no theorem depends on it). -/
def tyAliasRepr : Ty → String
  | .intT => "int"
  | .strT => "str"
  | .floatT => "float"
  | .boolT => "bool"
  | .noneT => "NoneType"
  | .any => "typing.Any"
  | .forwardRef s => s
  | _ => "generic"

def genericAliasHintsMsg (base : String) (args : List Ty) : String :=
  base ++ "[" ++ String.intercalate ", " (args.map tyAliasRepr) ++
    "] is not a module, class, method, or function."

/-- Python `type(value) is target` for the normalised targets: an exact
class match, including unqualified builtin collections. -/
def typeIs : Value → Ty → Bool
  | .bool _, .boolT => true
  | .int _, .intT => true
  | .float _, .floatT => true
  | .str _, .strT => true
  | .null, .noneT => true
  | .list _, .listT [] => true
  | .tuple _, .tupleT [] => true
  | .set _, .setT [] => true
  | .dict _, .dictT [] => true
  | _, _ => false

mutual
/-- `util.typename`.  On a generic alias the source calls
`typing.get_type_hints`, which raises TypeError (checked against CPython
3.11), so rendering such a type is an error, faithfully modelled; for a
Union containing `NoneType` the remaining branches render inside `(...)?`
unless there is exactly one. -/
def typename : Ty → Except PyErr String
  | .union ts =>
      if ts.any isNoneTy then do
        let rest ← typenameList true ts
        match rest with
        | [r] => .ok (r ++ "?")
        | rs => .ok ("(" ++ String.intercalate "|" rs ++ ")?")
      else do
        let rs ← typenameList false ts
        .ok (String.intercalate "|" rs)
  | .literal vs => .ok (String.intercalate "|" (vs.map pyRepr))
  | .any => .ok "any"
  | .strT => .ok "string"
  | .noneT => .ok "NoneType"
  | .boolT => .ok "bool"
  | .intT => .ok "int"
  | .floatT => .ok "float"
  | .forwardRef s => .ok s
  | .mappingT => .ok "typing.Mapping"
  | .sequenceT => .ok "typing.Sequence"
  | .listT [] => .ok "list"
  | .tupleT [] => .ok "tuple"
  | .setT [] => .ok "set"
  | .dictT [] => .ok "dict"
  | .listT (a :: r) => .error (.typeError (genericAliasHintsMsg "list" (a :: r)))
  | .tupleT (a :: r) => .error (.typeError (genericAliasHintsMsg "tuple" (a :: r)))
  | .setT (a :: r) => .error (.typeError (genericAliasHintsMsg "set" (a :: r)))
  | .dictT (a :: r) => .error (.typeError (genericAliasHintsMsg "dict" (a :: r)))
  termination_by t => sizeOf t

/-- Render a list of branches; with `skipNone` set, branches that are
`NoneType` are skipped (the optional rendering of `typename`). -/
def typenameList (skipNone : Bool) : List Ty → Except PyErr (List String)
  | [] => .ok []
  | t :: ts =>
      if skipNone && isNoneTy t then typenameList skipNone ts
      else do
        let n ← typename t
        let rest ← typenameList skipNone ts
        .ok (n :: rest)
  termination_by l => sizeOf l
end

mutual
/-- `util.typecast`, mirroring the source branch by branch: string
annotations pass through; exact type matches and `Any` pass through; then
float/str casts, unqualified collections, NoneType, bool, int, abstract
`Mapping`/`Sequence`, and generic collections, whose every element is cast
against `args[0]`.  Unqualified `set` reaches the final `target(value)`
fallback of the source, modelled directly.  `Literal` and `Union` targets
never reach their branches (checked against CPython 3.11): a Literal
annotation already crashes inside `normalize_type` (its origin falls
through to `build_generic(normalize_type(None), args)`, i.e. subscripting
NoneType), and a Union target — which all the preceding identity checks
fall through — crashes at the NamedTuple guard `issubclass(target, tuple)`
before the union loop, for every value; both arms model those raises. -/
def typecast (v : Value) (t : Ty) : Except PyErr Value :=
  if isForwardRefTy t then .ok v
  else if typeIs v t || isAnyTy t then .ok v
  else match t with
  | .floatT => (pyFloat v).map Value.float
  | .strT => .ok (.str (pyStr v))
  | .tupleT [] => (pyIter v).map Value.tuple
  | .listT [] => (pyIter v).map Value.list
  | .setT [] => (pyIter v).map (fun xs => Value.set (pySetDedup xs))
  | .dictT [] => pyDictOf v
  | .noneT => .error (.typeError ("Cannot convert " ++ typenameOfClass v ++ " to NoneType"))
  | .boolT =>
      match v with
      | .str s => (parse_bool (.str s)).map Value.bool
      | .list _ => .error (.typeError ("Cannot convert " ++ pyTypeName v ++ " to bool"))
      | .tuple _ => .error (.typeError ("Cannot convert " ++ pyTypeName v ++ " to bool"))
      | .set _ => .error (.typeError ("Cannot convert " ++ pyTypeName v ++ " to bool"))
      | .dict _ => .error (.typeError ("Cannot convert " ++ pyTypeName v ++ " to bool"))
      | _ => .ok (.bool (pyTruthy v))
  | .intT =>
      match v with
      | .str s =>
          match pyIntBase0 s with
          | some n => .ok (.int n)
          | none => .error (.valueError ("invalid literal for int() with base 0: " ++ pyStrLit s))
      | _ => (pyInt v).map Value.int
  | .literal _ =>
      .error (.typeError "type \x27NoneType\x27 is not subscriptable")
  | .union _ =>
      .error (.typeError "issubclass() arg 1 must be a class")
  | .mappingT =>
      match v with
      | .dict ps => .ok (.dict ps)
      | _ =>
          match typename .mappingT with
          | .ok name => .error (.typeError ("Cannot convert " ++ pyRepr v ++ " to " ++ name))
          | .error e => .error e
  | .sequenceT =>
      match v with
      | .list xs => .ok (.list xs)
      | .tuple xs => .ok (.tuple xs)
      | .str s => .ok (.str s)
      | _ =>
          match typename .sequenceT with
          | .ok name => .error (.typeError ("Cannot convert " ++ pyRepr v ++ " to " ++ name))
          | .error e => .error e
  | .tupleT (a :: _) => do
      let xs ← pyIter v
      let ys ← typecastElems xs a
      .ok (.tuple ys)
  | .listT (a :: _) => do
      let xs ← pyIter v
      let ys ← typecastElems xs a
      .ok (.list ys)
  | .setT (a :: _) => do
      let xs ← pyIter v
      let ys ← typecastElems xs a
      .ok (.set (pySetDedup ys))
  | .dictT [kt, vt] =>
      match v with
      | .dict ps => do
          let qs ← typecastPairs ps kt vt
          .ok (.dict (dictOfPairs qs))
      | _ => .error (.attributeError
          ("\x27" ++ pyTypeName v ++ "\x27 object has no attribute \x27items\x27"))
  | .dictT _ => pyDictOf v
  | .any => .ok v
  | .forwardRef _ => .ok v
  termination_by (sizeOf t, 0)

/-- Element-wise cast of the generic-collection branch: the generator
`origin(typecast(v, args[0]) for v in value)`, failing at the first
raising element. -/
def typecastElems (xs : List Value) (t : Ty) : Except PyErr (List Value) :=
  match xs with
  | [] => .ok []
  | x :: rest => do
      let y ← typecast x t
      let ys ← typecastElems rest t
      .ok (y :: ys)
  termination_by (sizeOf t, xs.length + 1)

/-- Key/value casts of the `dict[K, V]` branch. -/
def typecastPairs (ps : List (Value × Value)) (kt vt : Ty) :
    Except PyErr (List (Value × Value)) :=
  match ps with
  | [] => .ok []
  | (k, v) :: rest => do
      let k2 ← typecast k kt
      let v2 ← typecast v vt
      let qs ← typecastPairs rest kt vt
      .ok ((k2, v2) :: qs)
  termination_by (sizeOf kt + sizeOf vt + 1, ps.length + 1)
end

/-- Whether `needle` occurs as a contiguous slice of `hay`. -/
def containsSlice (needle : List Char) : List Char → Bool
  | [] => needle.isEmpty
  | c :: t => needle.isPrefixOf (c :: t) || containsSlice needle t

/-! ## Lemmas about typecast -/

theorem typeIs_union (v : Value) (l : List Ty) : typeIs v (.union l) = false := by
  cases v <;> rfl

/-- C6 fails as a code bug: the union loop of the source (the cited
`for arg in args: try ... except` with its closing
`TypeError("Cannot convert ...")`) is unreachable.  A Union target passes
every preceding identity check and then hits the NamedTuple guard
`issubclass(target, tuple)`, which raises
`TypeError("issubclass() arg 1 must be a class")` for non-class targets
(checked against CPython 3.11), so decoding ANY value against ANY Union
target raises that TypeError: branches are never tried in order, a first
accepting branch never wins — not even when the value exactly matches a
branch — and no union-of-errors is ever produced. -/
theorem C6_union_decode_always_raises (v : Value) (ts : List Ty) :
    typecast v (.union ts)
      = .error (.typeError "issubclass() arg 1 must be a class") := by
  rw [typecast]
  simp [isForwardRefTy, isAnyTy, typeIs_union]

/-- C6 witness: `Union[int, bool]` raises for the string "zz" and equally
for the value 1, although 1 matches the declared int branch exactly. -/
theorem C6_union_decode_always_raises_witness :
    typecast (.str "zz") (.union [.intT, .boolT])
        = .error (.typeError "issubclass() arg 1 must be a class")
    ∧ typecast (.int 1) (.union [.intT, .boolT])
        = .error (.typeError "issubclass() arg 1 must be a class") :=
  ⟨C6_union_decode_always_raises (.str "zz") [.intT, .boolT],
    C6_union_decode_always_raises (.int 1) [.intT, .boolT]⟩

/-- C7 fails on the code: decoding against the fixed-arity `tuple[str, int]`
iterates the input and casts EVERY element against `args[0]` (= str), so the
int element decodes to the string "5"; and no arity check is made, so inputs
of length 1 and 3 are accepted instead of failing with a TypeMismatch. -/
theorem C7_tuple_positional_decode_failing_input :
    typecast (.list [.str "a", .int 5]) (.tupleT [.strT, .intT])
      = .ok (.tuple [.str "a", .str "5"]) ∧
    typecast (.list [.str "a"]) (.tupleT [.strT, .intT]) = .ok (.tuple [.str "a"]) ∧
    typecast (.list [.str "a", .str "b", .str "c"]) (.tupleT [.strT, .intT])
      = .ok (.tuple [.str "a", .str "b", .str "c"]) := by
  refine ⟨?_, ?_, ?_⟩ <;>
    (simp only [typecast, typecastElems, typeIs, isForwardRefTy, isAnyTy, pyIter,
      pyStr, pyRepr, bind, Except.bind]; rfl)

/-! ## Lemmas for the primitive decode (C8) -/

theorem mem_dropWhile_of_neg {p : Char → Bool} {c : Char} (hc : p c = false) :
    ∀ {l : List Char}, c ∈ l → c ∈ l.dropWhile p := by
  intro l
  induction l with
  | nil => intro h; exact absurd h (List.not_mem_nil c)
  | cons a t ih =>
    intro h
    by_cases ha : p a = true
    · rw [List.dropWhile_cons_of_pos ha]
      rcases List.mem_cons.mp h with rfl | h'
      · rw [hc] at ha; exact absurd ha (by simp)
      · exact ih h'
    · rw [List.dropWhile_cons_of_neg (by simpa using ha)]
      exact h

theorem mem_stripPyWs {c : Char} (hc : isPyWs c = false) {l : List Char}
    (h : c ∈ l) : c ∈ stripPyWs l := by
  unfold stripPyWs
  exact List.mem_reverse.mpr (mem_dropWhile_of_neg hc
    (List.mem_reverse.mpr (mem_dropWhile_of_neg hc h)))

theorem all_eq_false_of_mem {p : Char → Bool} {c : Char} {l : List Char}
    (h : c ∈ l) (hc : p c = false) : l.all p = false := by
  by_contra hall
  have := List.all_eq_true.mp (by simpa using hall) c h
  rw [hc] at this
  exact absurd this (by simp)

/-- A dot anywhere in the body makes `int(s, 0)` reject it: no digit class
contains a dot. -/
theorem parseIntZeroTail_dot : ∀ {tl : List Char}, ('.' : Char) ∈ tl →
    parseIntZeroTail tl = none := by
  intro tl htl
  cases tl with
  | nil => exact absurd htl (List.not_mem_nil _)
  | cons c rest =>
    simp only [parseIntZeroTail]
    by_cases hx : (c = 'x' || c = 'X') = true
    · rw [if_pos hx]
      have hr : ('.' : Char) ∈ rest := by
        rcases List.mem_cons.mp htl with h' | h'
        · rcases Bool.or_eq_true_iff.mp hx with h2 | h2 <;>
            (rw [show c = '.' from h'.symm] at h2; exact absurd h2 (by decide))
        · exact h'
      rw [all_eq_false_of_mem hr (by decide)]
      simp
    · rw [if_neg (by simpa using hx)]
      by_cases ho : (c = 'o' || c = 'O') = true
      · rw [if_pos ho]
        have hr : ('.' : Char) ∈ rest := by
          rcases List.mem_cons.mp htl with h' | h'
          · rcases Bool.or_eq_true_iff.mp ho with h2 | h2 <;>
              (rw [show c = '.' from h'.symm] at h2; exact absurd h2 (by decide))
          · exact h'
        rw [all_eq_false_of_mem hr (by decide)]
        simp
      · rw [if_neg (by simpa using ho)]
        by_cases hb : (c = 'b' || c = 'B') = true
        · rw [if_pos hb]
          have hr : ('.' : Char) ∈ rest := by
            rcases List.mem_cons.mp htl with h' | h'
            · rcases Bool.or_eq_true_iff.mp hb with h2 | h2 <;>
                (rw [show c = '.' from h'.symm] at h2; exact absurd h2 (by decide))
            · exact h'
          rw [all_eq_false_of_mem hr (by decide)]
          simp
        · rw [if_neg (by simpa using hb)]
          rw [all_eq_false_of_mem htl (by decide)]
          simp

theorem parseIntBody_dot : ∀ {b : List Char}, ('.' : Char) ∈ b → parseIntBody b = none := by
  intro b h
  cases b with
  | nil => exact absurd h (List.not_mem_nil _)
  | cons c0 tl =>
    simp only [parseIntBody]
    by_cases hc0 : c0 = '0'
    · subst hc0
      have htl : ('.' : Char) ∈ tl := by
        rcases List.mem_cons.mp h with h' | h'
        · exact absurd h' (by decide)
        · exact h'
      rw [if_pos rfl]
      exact parseIntZeroTail_dot htl
    · rw [if_neg hc0]
      rw [all_eq_false_of_mem h (by decide)]
      simp

theorem pyIntBase0_dot {s : String} (h : ('.' : Char) ∈ s.data) :
    pyIntBase0 s = none := by
  unfold pyIntBase0
  have hmem : ('.' : Char) ∈ stripPyWs s.data := mem_stripPyWs (by decide) h
  cases hl : stripPyWs s.data with
  | nil => rw [hl] at hmem; exact absurd hmem (List.not_mem_nil _)
  | cons c r =>
    rw [hl] at hmem
    simp only [pyIntSigned]
    by_cases hplus : c = '+'
    · rw [if_pos hplus]
      have hr : ('.' : Char) ∈ r := by
        rcases List.mem_cons.mp hmem with h' | h'
        · rw [hplus] at h'; exact absurd h' (by decide)
        · exact h'
      rw [parseIntBody_dot hr]
      rfl
    · rw [if_neg hplus]
      by_cases hminus : c = '-'
      · rw [if_pos hminus]
        have hr : ('.' : Char) ∈ r := by
          rcases List.mem_cons.mp hmem with h' | h'
          · rw [hminus] at h'; exact absurd h' (by decide)
          · exact h'
        rw [parseIntBody_dot hr]
        rfl
      · rw [if_neg hminus]
        rw [parseIntBody_dot hmem]
        rfl

/-- Unfolding of the bool decode on a string value. -/
theorem typecast_str_boolT (s : String) :
    typecast (.str s) .boolT = (parse_bool (.str s)).map Value.bool := by
  rw [typecast]
  rfl

theorem parse_bool_str (s : String) :
    parse_bool (.str s) =
      if parseBoolTrueTokens.contains (pyLower s) then .ok true
      else if parseBoolFalseTokens.contains (pyLower s) then .ok false
      else .error (.valueError
        ("Cannot convert " ++ pyRepr (Value.str (pyLower s)) ++ " to bool")) := by
  unfold parse_bool
  simp [pyEqInt, isNullV, pyStrIn]

/-- C8 fails as stated: the primitive decode is far more permissive than
claimed.  A list decodes against a string target via stringification, a
fractional float truncates against an integer target, the unlisted token
"t"/"T" is accepted as boolean true, and null coerces to boolean False —
none of these is an exact type match, a numeric string, or one of the
claimed permissive tokens, yet none of them fails. -/
theorem C8_primitive_decode_counterexample :
    typecast (.list [.int 1, .int 2]) .strT = .ok (.str "[1, 2]") ∧
    typecast (.float (7 / 2)) .intT = .ok (.int 3) ∧
    typecast (.str "T") .boolT = .ok (.bool true) ∧
    typecast .null .boolT = .ok (.bool false) := by
  refine ⟨?_, ?_, ?_, ?_⟩
  · simp only [typecast, typeIs, isForwardRefTy, isAnyTy, pyStr, pyRepr, pyReprList]
    rfl
  · simp [typecast, typeIs, isForwardRefTy, isAnyTy, pyInt, pyTrunc]
    norm_num
    rfl
  · simp only [typecast, typeIs, isForwardRefTy, isAnyTy, parse_bool]
    rfl
  · simp only [typecast, typeIs, isForwardRefTy, isAnyTy]
    rfl

/-- C8 (amended): exact type matches pass through unchanged; an integer
target accepts a base-0 numeric string and a float target a decimal numeric
string; a string containing a dot decoded against an integer target fails
with a ValueError rather than being truncated; and a string against a
boolean target decodes to True or False exactly for the lowercased members
of the source token sets t/true/y/yes/on/enable/1 and
f/false/n/no/off/disable/0/"" — every other string raises. -/
theorem C8_primitive_decode_amended (s : String) (n : ℤ) (b : Bool) (q : ℚ)
    (m : ℤ) (p : ℚ) :
    (typecast (.str s) .strT = .ok (.str s)) ∧
    (typecast (.int n) .intT = .ok (.int n)) ∧
    (typecast (.bool b) .boolT = .ok (.bool b)) ∧
    (typecast (.float q) .floatT = .ok (.float q)) ∧
    (typecast .null .noneT = .ok .null) ∧
    (pyIntBase0 s = some m → typecast (.str s) .intT = .ok (.int m)) ∧
    (pyFloatLit s = some p → typecast (.str s) .floatT = .ok (.float p)) ∧
    (('.' : Char) ∈ s.data → typecast (.str s) .intT
        = .error (.valueError ("invalid literal for int() with base 0: " ++ pyStrLit s))) ∧
    (typecast (.str s) .boolT = .ok (.bool true)
      ↔ parseBoolTrueTokens.contains (pyLower s) = true) ∧
    (typecast (.str s) .boolT = .ok (.bool false)
      ↔ parseBoolTrueTokens.contains (pyLower s) = false ∧
          parseBoolFalseTokens.contains (pyLower s) = true) := by
  refine ⟨?_, ?_, ?_, ?_, ?_, ?_, ?_, ?_, ?_, ?_⟩
  · simp [typecast, typeIs, isForwardRefTy, isAnyTy]
  · simp [typecast, typeIs, isForwardRefTy, isAnyTy]
  · simp [typecast, typeIs, isForwardRefTy, isAnyTy]
  · simp [typecast, typeIs, isForwardRefTy, isAnyTy]
  · simp [typecast, typeIs, isForwardRefTy, isAnyTy]
  · intro h
    simp [typecast, typeIs, isForwardRefTy, isAnyTy, h]
  · intro h
    simp [typecast, typeIs, isForwardRefTy, isAnyTy, pyFloat, h, Except.map]
  · intro h
    simp [typecast, typeIs, isForwardRefTy, isAnyTy, pyIntBase0_dot h]
  · rw [typecast_str_boolT, parse_bool_str]
    by_cases h1 : pyLower s ∈ parseBoolTrueTokens
    · simp [h1, Except.map]
    · by_cases h2 : pyLower s ∈ parseBoolFalseTokens <;>
        simp [h1, h2, Except.map]
  · rw [typecast_str_boolT, parse_bool_str]
    by_cases h1 : pyLower s ∈ parseBoolTrueTokens
    · simp [h1, Except.map]
    · by_cases h2 : pyLower s ∈ parseBoolFalseTokens <;>
        simp [h1, h2, Except.map]

theorem C8_primitive_decode_amended_witness :
    (pyIntBase0 "42" = some 42 ∧ typecast (.str "42") .intT = .ok (.int 42)) ∧
    (pyFloatLit "3.5" = some (7 / 2) ∧
      typecast (.str "3.5") .floatT = .ok (.float (7 / 2))) ∧
    (('.' : Char) ∈ "3.5".data ∧ typecast (.str "3.5") .intT
        = .error (.valueError "invalid literal for int() with base 0: \x273.5\x27")) ∧
    typecast (.str "YES") .boolT = .ok (.bool true) ∧
    typecast (.str "off") .boolT = .ok (.bool false) ∧
    typecast (.str "hello") .strT = .ok (.str "hello") := by
  have hint : pyIntBase0 "42" = some 42 := by rfl
  have hfl : pyFloatLit "3.5" = some (7 / 2) := by
    have h : pyFloatLit "3.5" = some (ratOfDec false 3 5 1 0) := by rfl
    rw [h]
    norm_num [ratOfDec]
  have hdot : ('.' : Char) ∈ "3.5".data := by decide
  refine ⟨⟨hint, (C8_primitive_decode_amended "42" 0 true 0 42 0).2.2.2.2.2.1 hint⟩,
    ⟨hfl, (C8_primitive_decode_amended "3.5" 0 true 0 0 (7/2)).2.2.2.2.2.2.1 hfl⟩,
    ⟨hdot, ?_⟩, ?_, ?_, (C8_primitive_decode_amended "hello" 0 true 0 0 0).1⟩
  · have h8 := (C8_primitive_decode_amended "3.5" 0 true 0 0 0).2.2.2.2.2.2.2.1 hdot
    have hmsg : "invalid literal for int() with base 0: " ++ pyStrLit "3.5"
        = "invalid literal for int() with base 0: \x273.5\x27" := by rfl
    rw [hmsg] at h8
    exact h8
  · exact ((C8_primitive_decode_amended "YES" 0 true 0 0 0).2.2.2.2.2.2.2.2.1).mpr (by rfl)
  · exact ((C8_primitive_decode_amended "off" 0 true 0 0 0).2.2.2.2.2.2.2.2.2).mpr
      ⟨by rfl, by rfl⟩

/-! ## ChainOfThoughtAdapter.parse (src/servitor/adapter.py)

The source splits the response into lines, keeps all but the last as the
reasoning trail, and runs
`re.search(r"return[\s\n]*\([\s\n]*(.+)[\s\n]*\)[^\)\n]*$", answer)` on the
LAST line only.  The matcher below implements exactly the leftmost, greedy,
backtracking semantics of `re.search` specialised to that pattern: a greedy
star enumerates its splits longest-first, alternatives are tried in order,
and the first full match wins.  `\s` is modelled on its ASCII subset;
`str.splitlines` splits on every Python line boundary (LF, CR, CRLF, VT,
FF, FS, GS, RS, NEL, U+2028, U+2029). -/

/-- The `.` character class (newline excluded, no DOTALL). -/
def dotChar (c : Char) : Bool := c ≠ '\n'

/-- All splits of `l` into a run of `p`-characters and a remainder, longest
run first: the backtracking order of a greedy `p*`. -/
def greedySplits (p : Char → Bool) : List Char → List (List Char × List Char)
  | [] => [([], [])]
  | c :: t =>
      if p c then
        (greedySplits p t).map (fun pr => (c :: pr.1, pr.2)) ++ [([], c :: t)]
      else [([], c :: t)]

/-- First alternative, in order, on which `f` succeeds. -/
def firstSome {α β : Type} (l : List α) (f : α → Option β) : Option β :=
  match l with
  | [] => none
  | a :: t =>
      match f a with
      | some b => some b
      | none => firstSome t f

/-- Remnant `[\s\n]*\)[^\)\n]*$` of the pattern, after the captured group:
optional whitespace, a closing parenthesis, then only non-parenthesis
characters up to the end. -/
def reTailCheck (r : List Char) : Bool :=
  (firstSome (greedySplits isPyWs r) (fun pr =>
    match pr.2 with
    | ')' :: r5 => if r5.all (fun c => c ≠ ')' && c ≠ '\n') then some () else none
    | _ => none)).isSome

/-- Part `[\s\n]*(.+)` of the pattern followed by the tail, applied after
the opening parenthesis; returns the captured group. -/
def reCapture (r3 : List Char) : Option (List Char) :=
  firstSome (greedySplits isPyWs r3) (fun ws =>
    firstSome ((greedySplits dotChar ws.2).dropLast) (fun g =>
      if reTailCheck g.2 then some g.1 else none))

/-- Match a literal prefix, returning the remainder. -/
def dropLit : List Char → List Char → Option (List Char)
  | [], l => some l
  | _ :: _, [] => none
  | a :: as2, c :: cs => if c = a then dropLit as2 cs else none

/-- The full pattern anchored at the current position: literal `return`,
optional whitespace, `(`, then capture and tail. -/
def matchReturnAt (l : List Char) : Option (List Char) :=
  match dropLit "return".data l with
  | none => none
  | some r1 =>
      firstSome (greedySplits isPyWs r1) (fun ws =>
        match ws.2 with
        | '(' :: r3 => reCapture r3
        | _ => none)

/-- `re.search`: try every start position left to right. -/
def reSearch : List Char → Option (List Char)
  | [] => matchReturnAt []
  | l@(_ :: t) =>
      match matchReturnAt l with
      | some g => some g
      | none => reSearch t

/-- The line-boundary characters of Python `str.splitlines`: LF, CR, VT,
FF, FS, GS, RS, NEL, LINE SEPARATOR and PARAGRAPH SEPARATOR (CRLF is
handled as a single boundary by the splitter below). -/
def isLineBreak (c : Char) : Bool :=
  c = '\n' || c = '\r' || c = '\x0b' || c = '\x0c' ||
    c = '\x1c' || c = '\x1d' || c = '\x1e' || c = '\x85' ||
    c = '\u2028' || c = '\u2029'

def splitLinesAux : List Char → List Char → List (List Char)
  | acc, [] => if acc.isEmpty then [] else [acc.reverse]
  | acc, '\r' :: '\n' :: t => acc.reverse :: splitLinesAux [] t
  | acc, c :: t =>
      if isLineBreak c then acc.reverse :: splitLinesAux [] t
      else splitLinesAux (c :: acc) t

/-- Python `str.splitlines`: a line ends at any line boundary, with CRLF
counting as one boundary; the empty string has no lines and a trailing
boundary produces no trailing empty line (so no returned line ever
contains a line-break character). -/
def pySplitlines (l : List Char) : List (List Char) :=
  splitLinesAux [] l

/-- `ChainOfThoughtAdapter.parse`: split into lines, search the marker in
the LAST line only, decode only the captured payload with the inherited
`TypeAdapter.parse` (the parameter `inner`), and pair the preceding lines
with the decoded answer; a missing marker raises ValueError. -/
def parseCoT {α : Type} (inner : String → Except PyErr α) (res : String) :
    Except PyErr (List String × α) :=
  match pySplitlines res.data with
  | [] => .error (.valueError "not enough values to unpack (expected at least 1, got 0)")
  | ls =>
      match reSearch (ls.getLastD []) with
      | some g =>
          match inner (String.mk g) with
          | .ok v => .ok (ls.dropLast.map String.mk, v)
          | .error e => .error e
      | none => .error (.valueError "No `return(answer)` statement found.")

/-! ## Lemmas for the marker search -/

theorem firstSome_append {α β : Type} (f : α → Option β) :
    ∀ (X Y : List α), firstSome (X ++ Y) f =
      match firstSome X f with
      | some b => some b
      | none => firstSome Y f := by
  intro X Y
  induction X with
  | nil => simp [firstSome]
  | cons a t ih =>
    rw [List.cons_append, firstSome, firstSome]
    cases f a with
    | none => simpa using ih
    | some b => rfl

theorem firstSome_map_commute {α β : Type} (g : α → α) (h : β → β)
    (f f2 : α → Option β) (hf : ∀ a, f2 (g a) = Option.map h (f a)) :
    ∀ X : List α, firstSome (X.map g) f2 = Option.map h (firstSome X f) := by
  intro X
  induction X with
  | nil => simp [firstSome]
  | cons a t ih =>
    rw [List.map_cons, firstSome, firstSome, hf a]
    cases f a with
    | none => simpa using ih
    | some b => rfl

theorem firstSome_singleton {α β : Type} (f : α → Option β) (a : α) :
    firstSome [a] f = f a := by
  cases h : f a <;> simp [firstSome, h]

theorem greedySplits_cons_pos {p : Char → Bool} {c : Char} (hc : p c = true)
    (t : List Char) :
    greedySplits p (c :: t) =
      (greedySplits p t).map (fun pr => (c :: pr.1, pr.2)) ++ [([], c :: t)] := by
  simp [greedySplits, hc]

theorem greedySplits_cons_neg {p : Char → Bool} {c : Char} (hc : p c = false)
    (t : List Char) : greedySplits p (c :: t) = [([], c :: t)] := by
  simp [greedySplits, hc]

/-- The capture continuation of `reCapture`. -/
def captureCont (gr : List Char × List Char) : Option (List Char) :=
  if reTailCheck gr.2 then some gr.1 else none

/-- Over the full greedy enumeration of `.`-prefixes of `p ++ ")"`, the
first split whose remainder matches the pattern tail captures exactly `p`. -/
theorem firstSome_greedy_capture :
    ∀ p : List Char, (∀ c ∈ p, c ≠ ')' ∧ c ≠ '\n') →
      firstSome (greedySplits dotChar (p ++ [')'])) captureCont = some p := by
  intro p
  induction p with
  | nil => intro _; rfl
  | cons c p' ih =>
    intro hgood
    have hc : dotChar c = true := by
      simp [dotChar, (hgood c (by simp)).2]
    rw [List.cons_append, greedySplits_cons_pos hc, firstSome_append]
    have hmap : firstSome ((greedySplits dotChar (p' ++ [')'])).map
        (fun pr => (c :: pr.1, pr.2))) captureCont
        = Option.map (fun g => c :: g)
            (firstSome (greedySplits dotChar (p' ++ [')'])) captureCont) := by
      apply firstSome_map_commute
      intro a
      show captureCont (c :: a.1, a.2) = Option.map (fun g => c :: g) (captureCont a)
      unfold captureCont
      cases h : reTailCheck a.2 <;> simp [h]
    rw [hmap, ih (fun d hd => hgood d (by simp [hd]))]
    rfl

/-- The `.+` enumeration (all nonempty prefixes, longest first) captures
exactly `p` from `p ++ ")"`. -/
theorem dotPlus_capture {c : Char} {p' : List Char}
    (hgood : ∀ d ∈ c :: p', d ≠ ')' ∧ d ≠ '\n') :
    firstSome ((greedySplits dotChar ((c :: p') ++ [')'])).dropLast) captureCont
      = some (c :: p') := by
  have hc : dotChar c = true := by
    simp [dotChar, (hgood c (by simp)).2]
  rw [List.cons_append, greedySplits_cons_pos hc, List.dropLast_concat]
  have hmap : firstSome ((greedySplits dotChar (p' ++ [')'])).map
      (fun pr => (c :: pr.1, pr.2))) captureCont
      = Option.map (fun g => c :: g)
          (firstSome (greedySplits dotChar (p' ++ [')'])) captureCont) := by
    apply firstSome_map_commute
    intro a
    show captureCont (c :: a.1, a.2) = Option.map (fun g => c :: g) (captureCont a)
    unfold captureCont
    cases h : reTailCheck a.2 <;> simp [h]
  rw [hmap, firstSome_greedy_capture p' (fun d hd => hgood d (by simp [hd]))]
  rfl

theorem dropLit_append : ∀ (a b : List Char), dropLit a (a ++ b) = some b := by
  intro a b
  induction a with
  | nil => rfl
  | cons c t ih => simp [dropLit, ih]

theorem reSearch_cons (c : Char) (t : List Char) :
    reSearch (c :: t) =
      match matchReturnAt (c :: t) with
      | some g => some g
      | none => reSearch t := rfl

/-- The marker search on the well-formed line `return(p)`: the capture is
exactly the payload `p` when `p` is nonempty, free of `)` and newline, and
does not start with whitespace. -/
theorem reSearch_return_line {c0 : Char} {p' : List Char}
    (hgood : ∀ d ∈ c0 :: p', d ≠ ')' ∧ d ≠ '\n')
    (hws : isPyWs c0 = false) :
    reSearch ("return(".data ++ (c0 :: p') ++ [')']) = some (c0 :: p') := by
  have hparen : isPyWs '(' = false := rfl
  have hmra : matchReturnAt ("return(".data ++ (c0 :: p') ++ [')'])
      = some (c0 :: p') := by
    have hsplit : "return(".data ++ (c0 :: p') ++ [')']
        = "return".data ++ ('(' :: ((c0 :: p') ++ [')'])) := rfl
    rw [hsplit]
    unfold matchReturnAt
    rw [dropLit_append]
    show firstSome (greedySplits isPyWs ('(' :: ((c0 :: p') ++ [')'])))
        (fun ws =>
          match ws.2 with
          | '(' :: r3 => reCapture r3
          | _ => none) = some (c0 :: p')
    rw [greedySplits_cons_neg hparen, firstSome_singleton]
    show reCapture ((c0 :: p') ++ [')']) = some (c0 :: p')
    unfold reCapture
    rw [List.cons_append, greedySplits_cons_neg hws, firstSome_singleton,
      ← List.cons_append]
    show firstSome ((greedySplits dotChar ((c0 :: p') ++ [')'])).dropLast)
        captureCont = some (c0 :: p')
    exact dotPlus_capture hgood
  rw [show "return(".data ++ (c0 :: p') ++ [')']
      = 'r' :: ("eturn(".data ++ (c0 :: p') ++ [')']) from rfl] at hmra ⊢
  rw [reSearch_cons, hmra]

/-- Unfolding of `parseCoT` once the line split is known and nonempty. -/
theorem parseCoT_eq {α : Type} (inner : String → Except PyErr α) (res : String)
    (ls : List (List Char)) (h : pySplitlines res.data = ls) (hne : ls ≠ []) :
    parseCoT inner res =
      match reSearch (ls.getLastD []) with
      | some g =>
          match inner (String.mk g) with
          | .ok v => .ok (ls.dropLast.map String.mk, v)
          | .error e => .error e
      | none => .error (.valueError "No `return(answer)` statement found.") := by
  unfold parseCoT
  rw [h]
  cases ls with
  | nil => exact absurd rfl hne
  | cons a t => rfl

/-- C9 counterexample: the spec says the marker is found "by greedily
matching the last occurrence in the text", but `ChainOfThoughtAdapter.parse`
searches only the LAST LINE of the response.  A response whose `return(...)`
marker sits on an earlier line fails with the no-marker ValueError even
though the marker occurs in the text (and the search pattern itself would
match that earlier line, third conjunct). -/
theorem C9_cot_last_line_counterexample :
    parseCoT (fun s => (Except.ok s : Except PyErr String)) "return(1)\nno marker here"
        = .error (.valueError "No `return(answer)` statement found.")
    ∧ containsSlice "return(".data "return(1)\nno marker here".data = true
    ∧ reSearch "return(1)".data = some "1".data := by
  exact ⟨rfl, by decide, rfl⟩

/-- C9 (amended): `ChainOfThoughtAdapter.parse` splits the response into
lines, keeps all but the last as the reasoning trail, and searches the
`return(...)` marker ONLY in the final line (greedy within that line);
when the final line is `return(p)` with a well-formed payload `p`, only `p`
is decoded with the inherited parse and the pair (reasoning trail, decoded
answer) is returned.  When the parse reports a missing marker (or any other
decode error), the negotiation loop catches it and turns it into a
correction round: an error on the first response followed by a success on
the second yields that value with a two-entry attempt log. -/
theorem C9_cot_parse_amended {α : Type} (inner : String → Except PyErr α)
    (res : String) (tls : List (List Char)) (c0 : Char) (p' : List Char) (v : α)
    (hsplit : pySplitlines res.data = tls ++ ["return(".data ++ (c0 :: p') ++ [')']])
    (hgood : ∀ d ∈ c0 :: p', d ≠ ')' ∧ d ≠ '\n')
    (hws : isPyWs c0 = false)
    (hinner : inner (String.mk (c0 :: p')) = .ok v) :
    parseCoT inner res = .ok (tls.map String.mk, v)
    ∧ ∀ (fixOf : String → PyErr → String) (prompt : String) (retry : ℕ)
        (responses : ℕ → String) (e0 : PyErr) (pv : List String × α),
        2 ≤ retry →
        parseCoT inner (responses 0) = .error e0 →
        parseCoT inner (responses 1) = .ok pv →
        (negotiate (parseCoT inner) fixOf prompt retry responses).value = some pv
        ∧ (negotiate (parseCoT inner) fixOf prompt retry responses).attempts.length = 2 := by
  constructor
  · rw [parseCoT_eq inner res _ hsplit (by simp)]
    rw [List.getLastD_concat, reSearch_return_line hgood hws]
    simp [hinner, List.dropLast_concat]
  · intro fixOf prompt retry responses e0 pv hretry herr hok
    have h := negotiateFrom_succeeds (parseCoT inner) fixOf responses 1 retry 0 prompt
      (by omega)
      (fun j hj => by
        have hj0 : j = 0 := by omega
        exact ⟨e0, by simpa [hj0] using herr⟩)
      (by simpa using hok)
    exact ⟨h.1, h.2.1⟩

/-- C9 witness: the CRLF response "I think.\r\nreturn(42)" splits into the
trail ["I think."] (the carriage return is part of the line boundary, not
of the trail) and the marker line, parsing to the payload "42"; a
marker-less first response followed by a well-formed second one negotiates
to the second value in two attempts. -/
theorem C9_cot_parse_amended_witness :
    (pySplitlines "I think.\r\nreturn(42)".data
        = ["I think.".data] ++ ["return(".data ++ ('4' :: ['2']) ++ [')']]
      ∧ (∀ d ∈ '4' :: ['2'], d ≠ ')' ∧ d ≠ '\n') ∧ isPyWs '4' = false)
    ∧ parseCoT (fun s => (Except.ok s : Except PyErr String)) "I think.\r\nreturn(42)"
        = .ok (["I think."], "42")
    ∧ (negotiate (parseCoT (fun s => (Except.ok s : Except PyErr String)))
          (fun r _ => r) "P" 2
          (fun i => if i = 0 then "no marker" else "T\nreturn(7)")).value
        = some (["T"], "7")
    ∧ (negotiate (parseCoT (fun s => (Except.ok s : Except PyErr String)))
          (fun r _ => r) "P" 2
          (fun i => if i = 0 then "no marker" else "T\nreturn(7)")).attempts.length = 2 := by
  have h := C9_cot_parse_amended (fun s => (Except.ok s : Except PyErr String))
    "I think.\r\nreturn(42)" ["I think.".data] '4' ['2'] "42" rfl (by decide) rfl rfl
  have h2 := h.2 (fun r _ => r) "P" 2
    (fun i => if i = 0 then "no marker" else "T\nreturn(7)")
    (.valueError "No `return(answer)` statement found.") (["T"], "7")
    (by norm_num) rfl rfl
  exact ⟨⟨rfl, by decide, rfl⟩, h.1, h2.1, h2.2⟩

end Servitor
